import Mathlib

/-!
# Verification of the `log_stat_wf` log-telemetry collector

Shallow embedding of the Go sources of `log_stat_wf` (bucketed aggregation
store, durable upsert sink, query layer, WebSocket filter pipeline, fan-out
hub) together with proofs about the frozen behavioural claims.

Modelling conventions:
* Strings are `List Char` (`Str`), mirroring Go's byte-wise string handling
  for the ASCII data this program processes.
* Instants are `Nat` seconds.  Go's `time.Format(time.RFC3339)` (an external
  standard-library call) is modelled by a concrete textual encoding of the
  instant; nothing proved here depends on the encoding beyond being a fixed
  function.
* Third-party pattern matchers (`gobwas/glob` globs, `regexp` for the
  subscriber message regex / query logger regex) are external libraries and
  are modelled as opaque boolean matchers passed in as parameters.  The
  `timedObjectId` regex, whose exact semantics a claim depends on, is
  modelled concretely.
* SQLite is modelled as an association table keyed by the schema's unique
  key, with the `ON CONFLICT` upsert translated clause by clause.
-/

/-- Go strings, modelled as lists of characters. -/
abbrev Str := List Char

/-- `strings.ToLower` (ASCII case folding, which is all this program needs). -/
def lowerStr (s : Str) : Str := s.map Char.toLower

/-- `leadsWith s p` : the string `p` occurs at the start of `s`
(Go `strings.HasPrefix s p`). -/
def leadsWith : Str → Str → Bool
  | _, [] => true
  | [], _ :: _ => false
  | c :: s, d :: p => (c == d) && leadsWith s p

/-- Go `strings.Contains hay needle`. -/
def containsSub (hay needle : Str) : Bool :=
  match hay with
  | [] => needle.isEmpty
  | _ :: t => leadsWith hay needle || containsSub t needle

/-- Case-insensitive substring test, as in
`strings.Contains (strings.ToLower hay) (strings.ToLower needle)`. -/
def containsCI (hay needle : Str) : Bool :=
  containsSub (lowerStr hay) (lowerStr needle)

/-- Go `strings.EqualFold` restricted to ASCII folding. -/
def eqFold (a b : Str) : Bool := lowerStr a == lowerStr b

/-- Byte-wise lexicographic `<` on strings, as used by Go's `<` on `string`
and SQLite's default BINARY collation on TEXT. -/
def strLt : Str → Str → Bool
  | [], [] => false
  | [], _ :: _ => true
  | _ :: _, [] => false
  | c :: s, d :: t =>
    if c.toNat < d.toNat then true
    else if c.toNat = d.toNat then strLt s t
    else false

/-- Seconds in a nominal calendar day. -/
def secondsPerDay : Nat := 86400

/-- Start of the calendar day containing instant `t`
(Go `time.Date(year, month, day, 0, 0, 0, 0, ts.Location())`).  Days are
modelled as the fixed 86400-second grid of the epoch's clock. -/
def dayStart (t : Nat) : Nat := t - t % secondsPerDay

/-- `getBucketTime` from `log_stat_store.go` / `model.go`: the start of the
bucket containing `ts`, aligned to the start of `ts`'s calendar day.
`bucketSize` is in seconds.  The Go float division followed by `int`
truncation is exact floor division for these magnitudes. -/
def getBucketTime (ts bucketSize : Nat) : Nat :=
  let ds := dayStart ts
  let secondsSinceDayStart := ts - ds
  let bucketIndex := secondsSinceDayStart / bucketSize
  ds + bucketIndex * bucketSize

/-- The bucket sizes accepted by `main.go`'s validation, in seconds. -/
def validBucketSizes : List Nat := [60, 300, 600, 900, 1200, 1800, 3600]

/-- **C3.** For every instant `t` and every valid bucket size `Δ`,
`getBucketTime` equals `day_start(t) + ⌊(t − day_start(t)) / Δ⌋ · Δ`, it is
idempotent, it is at most `t`, and `t` lies less than `Δ` past it. -/
theorem c3_bucket_index_algebra (t d : Nat) (hd : d ∈ validBucketSizes) :
    getBucketTime t d = dayStart t + ((t - dayStart t) / d) * d ∧
    getBucketTime (getBucketTime t d) d = getBucketTime t d ∧
    getBucketTime t d ≤ t ∧
    t - getBucketTime t d < d := by
  have hdpos : 0 < d := by
    simp only [validBucketSizes, List.mem_cons, List.not_mem_nil, or_false] at hd
    rcases hd with h | h | h | h | h | h | h <;> omega
  have hmod : t % secondsPerDay < secondsPerDay := Nat.mod_lt _ (by decide)
  have hle : t % secondsPerDay ≤ t := Nat.mod_le _ _
  have hdivle : (t % secondsPerDay) / d * d ≤ t % secondsPerDay :=
    Nat.div_mul_le_self _ _
  have hgb : getBucketTime t d = (t - t % secondsPerDay) + (t % secondsPerDay) / d * d := by
    simp only [getBucketTime, dayStart]
    have h2 : t - (t - t % secondsPerDay) = t % secondsPerDay := by omega
    rw [h2]
  refine ⟨rfl, ?_, ?_, ?_⟩
  · -- idempotence: the bucket start lies in the same day, with day offset
    -- `(t % D) / d * d`, and flooring that offset again is the identity.
    have ht : secondsPerDay * (t / secondsPerDay) + t % secondsPerDay = t :=
      Nat.div_add_mod t secondsPerDay
    have hAlt : (t % secondsPerDay) / d * d < secondsPerDay :=
      lt_of_le_of_lt hdivle hmod
    have hmod2 : ((t - t % secondsPerDay) + (t % secondsPerDay) / d * d) % secondsPerDay
        = (t % secondsPerDay) / d * d := by
      have hX : (t - t % secondsPerDay) + (t % secondsPerDay) / d * d
          = secondsPerDay * (t / secondsPerDay) + (t % secondsPerDay) / d * d := by omega
      rw [hX, Nat.mul_add_mod, Nat.mod_eq_of_lt hAlt]
    have hds2 : dayStart (getBucketTime t d) = t - t % secondsPerDay := by
      rw [hgb]; unfold dayStart; rw [hmod2]; omega
    have hsub2 : getBucketTime t d - (t - t % secondsPerDay)
        = (t % secondsPerDay) / d * d := by
      rw [hgb]; omega
    have hdiv2 : (t % secondsPerDay) / d * d / d = (t % secondsPerDay) / d :=
      Nat.mul_div_cancel _ hdpos
    calc getBucketTime (getBucketTime t d) d
        = dayStart (getBucketTime t d)
            + (getBucketTime t d - dayStart (getBucketTime t d)) / d * d := rfl
      _ = getBucketTime t d := by rw [hds2, hsub2, hdiv2, hgb]
  · rw [hgb]; omega
  · rw [hgb]
    have hqr : (t % secondsPerDay) / d * d + t % secondsPerDay % d = t % secondsPerDay := by
      rw [Nat.mul_comm]
      exact Nat.div_add_mod (t % secondsPerDay) d
    have hr : t % secondsPerDay % d < d := Nat.mod_lt _ hdpos
    omega

/-- Witness for `c3_bucket_index_algebra` at `Δ = 5 min`,
`t = 13:07:42` into a day (spec scenario S1: the bucket starts at 13:05:00). -/
theorem c3_bucket_index_algebra_witness :
    (300 ∈ validBucketSizes) ∧ getBucketTime 47262 300 = 47100 ∧
    (getBucketTime 47262 300 ≤ 47262 ∧ 47262 - getBucketTime 47262 300 < 300) :=
  ⟨by decide, by decide, (c3_bucket_index_algebra 47262 300 (by decide)).2.2⟩

/-! ## Aggregation store (`log_stat_store.go`, `model.go`) -/

/-- Models Go's `time.Format(time.RFC3339)` on our `Nat` instants: a fixed
injective textual encoding of the instant (the decimal digits).  Nothing
below depends on the shape of the encoding. -/
def fmtTime (t : Nat) : Str := Nat.toDigits 10 t

/-- `LogStat` from `model.go`: one live counter / one durable row. -/
structure LogStat where
  ID : Nat := 0
  HostName : Str
  BucketTS : Str
  FirstSeenTS : Str
  BucketDuration_S : Nat
  Level : Str
  Logger : Str
  N : Nat
deriving DecidableEq

/-- `LogStatStore` from `log_stat_store.go`: the Go `map[string]*LogStat` is
modelled as an association list over the same string keys (insertion order
stands in for Go's arbitrary iteration order). -/
structure LogStatStore where
  entries : List (Str × LogStat)
  bucketSize : Nat
  appStartTime : Nat
deriving DecidableEq

/-- Association-list lookup (Go map read `m[k]`). -/
def alookup {α β : Type} [DecidableEq α] : List (α × β) → α → Option β
  | [], _ => none
  | (k, v) :: t, k' => if k = k' then some v else alookup t k'

/-- Association-list in-place update of an existing key (Go's mutation of a
`*LogStat` held in the map). -/
def aset {α β : Type} [DecidableEq α] : List (α × β) → α → β → List (α × β)
  | [], _, _ => []
  | (k, v) :: t, k', v' => if k = k' then (k, v') :: t else (k, v) :: aset t k' v'

/-- The live-map key built in `AddOrUpdate`:
`hostName + ":" + logger + ":" + level + ":" + bucketTS`. -/
def mkKey (hostName logger level bucketTS : Str) : Str :=
  hostName ++ [':'] ++ logger ++ [':'] ++ level ++ [':'] ++ bucketTS

/-- `AddOrUpdate` from `log_stat_store.go` (`Ingest`): `now` stands for
`time.Now()` (which on Go's monotonic clock is never before
`appStartTime`, so the `Nat` subtraction below coincides with
`int(currentTime.Sub(s.appStartTime).Seconds())`). -/
def AddOrUpdate (s : LogStatStore) (hostName level logger : Str) (now : Nat) :
    LogStat × LogStatStore :=
  let bucketStartTime := getBucketTime now s.bucketSize
  let bucketTS := fmtTime bucketStartTime
  let key := mkKey hostName logger level bucketTS
  match alookup s.entries key with
  | some stat =>
    let stat' := { stat with N := stat.N + 1 }
    (stat', { s with entries := aset s.entries key stat' })
  | none =>
    let duration :=
      if bucketStartTime < s.appStartTime then now - s.appStartTime else s.bucketSize
    let stat : LogStat :=
      { HostName := hostName, BucketTS := bucketTS, BucketDuration_S := duration,
        Level := level, Logger := logger, N := 1, FirstSeenTS := fmtTime now }
    (stat, { s with entries := s.entries ++ [(key, stat)] })

/-- `GetAll` (the `Snapshot` operation): all live counters. -/
def GetAll (s : LogStatStore) : List LogStat := s.entries.map (fun p => p.2)

lemma alookup_aset_self {α β : Type} [DecidableEq α] (l : List (α × β)) (k : α)
    (v0 v : β) (h : alookup l k = some v0) : alookup (aset l k v) k = some v := by
  induction l with
  | nil => simp [alookup] at h
  | cons p t ih =>
    obtain ⟨k1, v1⟩ := p
    by_cases hk : k1 = k
    · subst hk; simp [alookup, aset]
    · simp only [alookup, aset, if_neg hk] at h ⊢
      exact ih h

lemma alookup_aset_ne {α β : Type} [DecidableEq α] (l : List (α × β)) (k k' : α)
    (v : β) (h : k' ≠ k) : alookup (aset l k v) k' = alookup l k' := by
  induction l with
  | nil => simp [aset]
  | cons p t ih =>
    obtain ⟨k1, v1⟩ := p
    by_cases hk : k1 = k
    · have hne : ¬ k1 = k' := fun he => h (he.symm.trans hk)
      simp only [aset, if_pos hk, alookup, if_neg hne]
    · simp only [aset, if_neg hk, alookup]
      by_cases h1 : k1 = k'
      · simp [h1]
      · simp [h1, ih]

lemma alookup_append_last {α β : Type} [DecidableEq α] (l : List (α × β)) (k : α)
    (v : β) (h : alookup l k = none) : alookup (l ++ [(k, v)]) k = some v := by
  induction l with
  | nil => simp [alookup]
  | cons p t ih =>
    obtain ⟨k1, v1⟩ := p
    by_cases hk : k1 = k
    · simp [alookup, hk] at h
    · simp only [alookup, if_neg hk, List.cons_append] at h ⊢
      exact ih h

lemma alookup_append_last_ne {α β : Type} [DecidableEq α] (l : List (α × β))
    (k k' : α) (v : β) (h : k' ≠ k) :
    alookup (l ++ [(k, v)]) k' = alookup l k' := by
  induction l with
  | nil =>
    have hne : ¬ k = k' := fun he => h he.symm
    simp [alookup, hne]
  | cons p t ih =>
    obtain ⟨k1, v1⟩ := p
    simp only [List.cons_append, alookup]
    by_cases h1 : k1 = k'
    · simp [h1]
    · simp [h1, ih]

/-- **C2 (amended).** Per-call contract of `AddOrUpdate` (`Ingest`).  The
live map is keyed by the concatenated string
`host + ":" + logger + ":" + level + ":" + bucketTS`, so presence is
presence of that string key: if the string key is present its counter's `n`
grows by exactly 1 with every other field unchanged and no other key
affected; if it is absent a counter is created with `n = 1`,
`first_seen = now`, and `duration_s = Δ` unless the bucket start precedes
the process start, in which case `duration_s = max(0, now − process_start)`
(the `Nat` truncated subtraction).  The call is total and returns the
counter. -/
theorem c2_ingest_string_key_contract (s : LogStatStore)
    (hostName level logger : Str) (now : Nat) :
    let bucketStartTime := getBucketTime now s.bucketSize
    let key := mkKey hostName logger level (fmtTime bucketStartTime)
    let r := AddOrUpdate s hostName level logger now
    (∀ stat, alookup s.entries key = some stat →
      r.1.N = stat.N + 1 ∧ r.1.HostName = stat.HostName ∧
      r.1.BucketTS = stat.BucketTS ∧ r.1.FirstSeenTS = stat.FirstSeenTS ∧
      r.1.BucketDuration_S = stat.BucketDuration_S ∧ r.1.Level = stat.Level ∧
      r.1.Logger = stat.Logger ∧
      alookup r.2.entries key = some r.1 ∧
      ∀ k', k' ≠ key → alookup r.2.entries k' = alookup s.entries k') ∧
    (alookup s.entries key = none →
      r.1.N = 1 ∧ r.1.FirstSeenTS = fmtTime now ∧ r.1.HostName = hostName ∧
      r.1.Level = level ∧ r.1.Logger = logger ∧
      r.1.BucketTS = fmtTime bucketStartTime ∧
      r.1.BucketDuration_S =
        (if bucketStartTime < s.appStartTime then now - s.appStartTime
         else s.bucketSize) ∧
      alookup r.2.entries key = some r.1 ∧
      ∀ k', k' ≠ key → alookup r.2.entries k' = alookup s.entries k') := by
  refine ⟨?_, ?_⟩
  · intro stat hstat
    simp only [AddOrUpdate, hstat]
    refine ⟨trivial, trivial, trivial, trivial, trivial, trivial, trivial, ?_, ?_⟩
    · exact alookup_aset_self _ _ _ _ hstat
    · intro k' hk'
      exact alookup_aset_ne _ _ _ _ hk'
  · intro hstat
    simp only [AddOrUpdate, hstat]
    refine ⟨trivial, trivial, trivial, trivial, trivial, trivial, trivial, ?_, ?_⟩
    · exact alookup_append_last _ _ _ hstat
    · intro k' hk'
      exact alookup_append_last_ne _ _ _ _ hk'

/-- Witness for `c2_ingest_string_key_contract`: a first ingest into an
empty store creates a counter with `n = 1` stamped with the ingest
instant. -/
theorem c2_ingest_string_key_contract_witness :
    (AddOrUpdate ⟨[], 300, 0⟩ ("h".data) ("INFO".data) ("a.b".data) 1000).1.N = 1 ∧
    (AddOrUpdate ⟨[], 300, 0⟩ ("h".data) ("INFO".data) ("a.b".data) 1000).1.FirstSeenTS
      = fmtTime 1000 := by
  have h := (c2_ingest_string_key_contract ⟨[], 300, 0⟩ ("h".data) ("INFO".data)
    ("a.b".data) 1000).2 (by rfl)
  exact ⟨h.1, h.2.1⟩

/-- **C2 counterexample.** The claim reads the live map as keyed by the
tuple `(host, logger, level, bucket_start)`; the code keys it by the
colon-joined string, which is not injective.  Ingesting
`(host := "h", level := "y", logger := "x:INFO")` and then
`(host := "h", level := "INFO:y", logger := "x")` in the same bucket
produces the same string key, so the second call — whose tuple key is
absent from the live map — increments the first counter to `n = 2`
(returning a counter whose `logger` is `"x:INFO"`, not `"x"`) and creates
no new row, where the claim demands a fresh counter with `n = 1`. -/
theorem c2_counterexample :
    (AddOrUpdate (AddOrUpdate ⟨[], 300, 0⟩ ("h".data) ("y".data) ("x:INFO".data) 1000).2
        ("h".data) ("INFO:y".data) ("x".data) 1000).1.N = 2 ∧
    (AddOrUpdate (AddOrUpdate ⟨[], 300, 0⟩ ("h".data) ("y".data) ("x:INFO".data) 1000).2
        ("h".data) ("INFO:y".data) ("x".data) 1000).1.Logger = ("x:INFO".data) ∧
    (AddOrUpdate (AddOrUpdate ⟨[], 300, 0⟩ ("h".data) ("y".data) ("x:INFO".data) 1000).2
        ("h".data) ("INFO:y".data) ("x".data) 1000).2.entries.length = 1 := by
  refine ⟨rfl, rfl, rfl⟩

/-! ## Durable sink (`log_stat_store_util_db.go`) -/

/-- The unique key of the `log_stats` table:
`(hostname, bucket_ts, level, logger)`. -/
abbrev DbKey := Str × Str × Str × Str

/-- The durable key carried by a flushed counter. -/
def dbKeyOf (s : LogStat) : DbKey := (s.HostName, s.BucketTS, s.Level, s.Logger)

/-- The durable table, keyed by its UNIQUE constraint. -/
abbrev DbTable := List (DbKey × LogStat)

/-- The `CASE` expression of the upsert's `first_seen_ts` clause, translated
branch by branch from `upsertSQL` in `FlushToDb`. -/
def upsertFirstSeen (existing excluded : Str) : Str :=
  if existing = [] then excluded
  else if excluded = [] then existing
  else if strLt existing excluded then existing
  else excluded

/-- `min_non_empty` as the spec words it: `""` is treated as `+∞`, otherwise
the lexicographically smaller string wins. -/
def minNonEmpty (a b : Str) : Str :=
  if a = [] then b
  else if b = [] then a
  else if strLt a b then a else b

/-- The SQL `CASE` implements the spec's `min_non_empty`. -/
lemma upsertFirstSeen_eq_minNonEmpty (a b : Str) :
    upsertFirstSeen a b = minNonEmpty a b := rfl

/-- One `INSERT ... ON CONFLICT ... DO UPDATE` execution of `upsertSQL`:
on conflict `n` is summed, `bucket_duration_s` is replaced by the incoming
value, and `first_seen_ts` follows the `CASE` expression. -/
def upsertRow (db : DbTable) (s : LogStat) : DbTable :=
  let k := dbKeyOf s
  match alookup db k with
  | some r =>
    aset db k
      { r with N := r.N + s.N, BucketDuration_S := s.BucketDuration_S,
               FirstSeenTS := upsertFirstSeen r.FirstSeenTS s.FirstSeenTS }
  | none => db ++ [(k, s)]

/-- The error classes `FlushToDb` can return (database open, transaction
begin, statement prepare, transaction commit). -/
inductive FlushErr where
  | openErr | beginErr | prepareErr | commitErr
deriving DecidableEq

/-- `FlushToDb` from `log_stat_store_util_db.go`.  The four booleans model
whether `sql.Open`, `db.Begin`, `tx.Prepare` and `tx.Commit` succeed;
`rowOk` models per-row `stmt.Exec` success (a failing row is logged and
counted but does not stop the flush).  On every path — including every
error path — the live map is replaced by a fresh empty map; a failed
commit rolls the transaction back, leaving the table unchanged. -/
def FlushToDb (s : LogStatStore) (db : DbTable)
    (openOk beginOk prepareOk commitOk : Bool) (rowOk : LogStat → Bool) :
    Except FlushErr Unit × LogStatStore × DbTable :=
  let cleared := { s with entries := ([] : List (Str × LogStat)) }
  if !openOk then (.error .openErr, cleared, db)
  else if !beginOk then (.error .beginErr, cleared, db)
  else if !prepareOk then (.error .prepareErr, cleared, db)
  else
    let db' := s.entries.foldl (fun d p => if rowOk p.2 then upsertRow d p.2 else d) db
    if !commitOk then (.error .commitErr, cleared, db)
    else (.ok (), cleared, db')

/-- **C4.** Whatever the outcome — success, or an error from database open,
transaction begin, statement prepare, or commit — `FlushToDb` leaves the
live map empty, so a snapshot taken right after `Flush` yields no rows. -/
theorem c4_flush_always_clears (s : LogStatStore) (db : DbTable)
    (openOk beginOk prepareOk commitOk : Bool) (rowOk : LogStat → Bool) :
    (FlushToDb s db openOk beginOk prepareOk commitOk rowOk).2.1.entries = [] ∧
    GetAll (FlushToDb s db openOk beginOk prepareOk commitOk rowOk).2.1 = [] := by
  cases openOk <;> cases beginOk <;> cases prepareOk <;> cases commitOk <;>
    simp [FlushToDb, GetAll]

lemma alookup_upsertRow_ne (db : DbTable) (s : LogStat) (k : DbKey)
    (h : dbKeyOf s ≠ k) : alookup (upsertRow db s) k = alookup db k := by
  unfold upsertRow
  cases halo : alookup db (dbKeyOf s) with
  | some r =>
    simp only [halo]
    exact alookup_aset_ne db (dbKeyOf s) k _ (fun he => h he.symm)
  | none =>
    simp only [halo]
    exact alookup_append_last_ne db (dbKeyOf s) k s (fun he => h he.symm)

lemma alookup_flushFold_ne (l : List (Str × LogStat)) (db : DbTable)
    (k : DbKey) (rowOk : LogStat → Bool)
    (h : ∀ p ∈ l, dbKeyOf p.2 ≠ k) :
    alookup (l.foldl (fun d p => if rowOk p.2 then upsertRow d p.2 else d) db) k
      = alookup db k := by
  induction l generalizing db with
  | nil => rfl
  | cons p t ih =>
    simp only [List.foldl_cons]
    rw [ih _ (fun q hq => h q (List.mem_cons_of_mem _ hq))]
    by_cases hr : rowOk p.2
    · simp only [hr, if_true]
      exact alookup_upsertRow_ne _ _ _ (h p (List.mem_cons_self _ _))
    · simp [hr]

lemma alookup_upsertRow_hit (db : DbTable) (s r : LogStat)
    (h : alookup db (dbKeyOf s) = some r) :
    alookup (upsertRow db s) (dbKeyOf s)
      = some { r with N := r.N + s.N,
                      BucketDuration_S := s.BucketDuration_S,
                      FirstSeenTS := minNonEmpty r.FirstSeenTS s.FirstSeenTS } := by
  unfold upsertRow
  simp only [h]
  rw [upsertFirstSeen_eq_minNonEmpty]
  exact alookup_aset_self _ _ _ _ h

/-- **C1.** For a key present both in the live map (as counter `stat`) and
in the durable table (as row `r`), a successful `Flush` leaves a durable
row whose `n` is `r.n + stat.n`, whose `duration_s` is the flushed
`duration_s`, and whose `first_seen` is `min_non_empty` of the two
`first_seen` values (`""` treated as `+∞`, otherwise lexicographic
minimum). -/
theorem c1_flush_upsert_merges (s : LogStatStore) (db : DbTable)
    (e1 e2 : List (Str × LogStat)) (k0 : Str) (stat r : LogStat)
    (rowOk : LogStat → Bool)
    (hsplit : s.entries = e1 ++ (k0, stat) :: e2)
    (hdistinct : ∀ p ∈ e1 ++ e2, dbKeyOf p.2 ≠ dbKeyOf stat)
    (hdb : alookup db (dbKeyOf stat) = some r)
    (hrow : rowOk stat = true) :
    (FlushToDb s db true true true true rowOk).1 = .ok () ∧
    alookup (FlushToDb s db true true true true rowOk).2.2 (dbKeyOf stat)
      = some { r with N := r.N + stat.N,
                      BucketDuration_S := stat.BucketDuration_S,
                      FirstSeenTS := minNonEmpty r.FirstSeenTS stat.FirstSeenTS } := by
  refine ⟨rfl, ?_⟩
  show alookup
      (s.entries.foldl (fun d p => if rowOk p.2 then upsertRow d p.2 else d) db)
      (dbKeyOf stat) = _
  rw [hsplit, List.foldl_append, List.foldl_cons]
  have h1 : ∀ p ∈ e1, dbKeyOf p.2 ≠ dbKeyOf stat :=
    fun p hp => hdistinct p (List.mem_append_left _ hp)
  have h2 : ∀ p ∈ e2, dbKeyOf p.2 ≠ dbKeyOf stat :=
    fun p hp => hdistinct p (List.mem_append_right _ hp)
  have hmid : alookup (e1.foldl (fun d p => if rowOk p.2 then upsertRow d p.2 else d) db)
      (dbKeyOf stat) = some r := by
    rw [alookup_flushFold_ne e1 db _ rowOk h1]; exact hdb
  rw [alookup_flushFold_ne e2 _ _ rowOk h2]
  have hsnd : ((k0, stat).2 : LogStat) = stat := rfl
  simp only [hsnd]
  rw [if_pos hrow]
  exact alookup_upsertRow_hit _ _ _ hmid

/-- A live counter for the `c1_flush_upsert_merges` witness. -/
def c1stat : LogStat :=
  { HostName := ("h1").data, BucketTS := ("b").data, FirstSeenTS := ("t2").data,
    BucketDuration_S := 60, Level := ("INFO").data, Logger := ("app.A").data, N := 1 }

/-- A pre-existing durable row with the same key, for the witness. -/
def c1row : LogStat :=
  { HostName := ("h1").data, BucketTS := ("b").data, FirstSeenTS := ("t1").data,
    BucketDuration_S := 60, Level := ("INFO").data, Logger := ("app.A").data, N := 3 }

/-- Witness for `c1_flush_upsert_merges`: flushing a live `n = 1` counter
onto a durable `n = 3` row leaves `n = 4` with the earlier `first_seen`
(spec scenario S2). -/
theorem c1_flush_upsert_merges_witness :
    alookup (FlushToDb ⟨[(("k").data, c1stat)], 60, 0⟩ [(dbKeyOf c1stat, c1row)]
        true true true true (fun _ => true)).2.2 (dbKeyOf c1stat)
      = some { c1row with N := c1row.N + c1stat.N,
                          BucketDuration_S := c1stat.BucketDuration_S,
                          FirstSeenTS := minNonEmpty c1row.FirstSeenTS c1stat.FirstSeenTS } :=
  (c1_flush_upsert_merges ⟨[(("k").data, c1stat)], 60, 0⟩ [(dbKeyOf c1stat, c1row)]
    [] [] (("k").data) c1stat c1row (fun _ => true) rfl (by simp) (by rfl) rfl).2

/-! ## Per-client filter (`websocket_filter.go`, `model.go` websocket part) -/

/-- `RawLogEntry` from the websocket model file. -/
structure RawLogEntry where
  Timestamp : Nat
  Host : Str
  Logger : Str
  Level : Str
  Message : Str
  StackTrace : Str

/-- `ClientSubscription` from `websocket_filter.go`. -/
structure ClientSubscription where
  HostPatterns : List Str
  LoggerPatterns : List Str
  Levels : List Str
  MessageContains : List Str
  MessageExcludes : List Str
  MessageRegex : Str
  StackTraceMode : Str
  StackTraceInclude : List Str
  StackTraceExclude : List Str
  MaxMessagesPerSecond : Int
  BatchTimeoutMs : Int

/-- `MessageFilter`: the compiled form.  `gobwas/glob` globs and the
compiled `regexp` are external libraries, modelled as opaque boolean
matchers. -/
structure MessageFilter where
  subscription : ClientSubscription
  hostGlobs : List (Str → Bool)
  loggerGlobs : List (Str → Bool)
  messageRegex : Option (Str → Bool)
  stackInclude : List (Str → Bool)
  stackExclude : List (Str → Bool)

/-- `NewMessageFilter`: compiles every pattern, failing (returning `none`)
if any compilation fails; `compileGlob` / `compileRegex` model
`glob.Compile` / `regexp.Compile`. -/
def NewMessageFilter (compileGlob compileRegex : Str → Option (Str → Bool))
    (sub : ClientSubscription) : Option MessageFilter := do
  let hg ← sub.HostPatterns.mapM compileGlob
  let lg ← sub.LoggerPatterns.mapM compileGlob
  let mre ←
    if sub.MessageRegex.isEmpty then some none
    else match compileRegex sub.MessageRegex with
      | none => none
      | some r => some (some r)
  let si ← sub.StackTraceInclude.mapM compileGlob
  let se ← sub.StackTraceExclude.mapM compileGlob
  some { subscription := sub, hostGlobs := hg, loggerGlobs := lg,
         messageRegex := mre, stackInclude := si, stackExclude := se }

/-- `Matches` from `websocket_filter.go`, translated guard by guard (each
`if !matched { return false }` loop becomes one early-`false` branch). -/
def Matches (f : MessageFilter) (msg : RawLogEntry) : Bool :=
  if !f.hostGlobs.isEmpty && !(f.hostGlobs.any (fun g => g msg.Host)) then false
  else if !f.loggerGlobs.isEmpty && !(f.loggerGlobs.any (fun g => g msg.Logger)) then false
  else if !f.subscription.Levels.isEmpty
      && !(f.subscription.Levels.any (fun level => eqFold level msg.Level)) then false
  else if !f.subscription.MessageContains.isEmpty
      && !(f.subscription.MessageContains.any
            (fun sub => containsSub (lowerStr msg.Message) (lowerStr sub))) then false
  else if !f.subscription.MessageExcludes.isEmpty
      && (f.subscription.MessageExcludes.any
            (fun sub => containsSub (lowerStr msg.Message) (lowerStr sub))) then false
  else
    match f.messageRegex with
    | some re => re msg.Message
    | none => true

/-- "Empty pattern list matches all; otherwise at least one pattern must
match" — one axis of the claim's match semantics. -/
def anyOrEmpty {α : Type} (l : List α) (p : α → Bool) : Bool :=
  l.isEmpty || l.any p

/-- The claim's reading of the match semantics: the conjunction over all
six axes, each axis independent. -/
def matchesAxes (f : MessageFilter) (msg : RawLogEntry) : Bool :=
  anyOrEmpty f.hostGlobs (fun g => g msg.Host) &&
  (anyOrEmpty f.loggerGlobs (fun g => g msg.Logger) &&
  (anyOrEmpty f.subscription.Levels (fun level => eqFold level msg.Level) &&
  (anyOrEmpty f.subscription.MessageContains
      (fun sub => containsSub (lowerStr msg.Message) (lowerStr sub)) &&
  (!(f.subscription.MessageExcludes.any
      (fun sub => containsSub (lowerStr msg.Message) (lowerStr sub))) &&
  (match f.messageRegex with
   | some re => re msg.Message
   | none => true)))))

lemma ite_guard_all (e a X : Bool) :
    (if (!e && !a) = true then false else X) = ((e || a) && X) := by
  cases e <;> cases a <;> cases X <;> rfl

lemma ite_guard_excl (e a X : Bool) :
    (if (!e && a) = true then false else X) = ((!a || e) && X) := by
  cases e <;> cases a <;> cases X <;> rfl

lemma excl_or_empty {α : Type} (l : List α) (p : α → Bool) :
    (!(l.any p) || l.isEmpty) = !(l.any p) := by
  cases l <;> simp

/-- **C5.** An entry matches iff every non-empty axis matches: at least one
host glob, at least one logger glob, a case-insensitive level, at least one
case-insensitive `message_contains` substring, no `message_excludes`
substring, and the message regex when set; an axis with an empty pattern
list matches every entry. -/
theorem c5_matches_is_axis_conjunction (f : MessageFilter) (msg : RawLogEntry) :
    Matches f msg = matchesAxes f msg := by
  unfold Matches matchesAxes anyOrEmpty
  rw [ite_guard_all, ite_guard_all, ite_guard_all, ite_guard_all, ite_guard_excl,
      excl_or_empty]

/-- `GetDefaultSubscription` from `websocket_filter.go`: only `Levels` and
`StackTraceMode` are set; every other field keeps its Go zero value. -/
def GetDefaultSubscription : ClientSubscription :=
  { HostPatterns := [], LoggerPatterns := [],
    Levels := [("INFO").data, ("WARN").data, ("ERROR").data, ("FATAL").data],
    MessageContains := [], MessageExcludes := [], MessageRegex := [],
    StackTraceMode := ("summary").data,
    StackTraceInclude := [], StackTraceExclude := [],
    MaxMessagesPerSecond := 0, BatchTimeoutMs := 0 }

/-- The state `NewClient` (`websocket_client.go`) sets up: the subscription,
the compiled filter (`none` when compilation failed, as Go stores `nil`),
the rate limiter (present only for a positive `max_rate`), and whether the
batch timer was started. -/
structure Client where
  subscription : ClientSubscription
  filter : Option MessageFilter
  rateLimiter : Option Int
  batchTimerOn : Bool

/-- `NewClient` from `websocket_client.go`, restricted to the filter-visible
state (socket and hub wiring are transport). -/
def NewClient (compileGlob compileRegex : Str → Option (Str → Bool)) : Client :=
  let defaultSub := GetDefaultSubscription
  let filter := NewMessageFilter compileGlob compileRegex defaultSub
  { subscription := defaultSub,
    filter := filter,
    rateLimiter :=
      if 0 < defaultSub.MaxMessagesPerSecond then some defaultSub.MaxMessagesPerSecond
      else none,
    batchTimerOn := decide (0 < defaultSub.BatchTimeoutMs) }

/-- **C10.** A freshly accepted client runs under the default subscription:
levels exactly `{INFO, WARN, ERROR, FATAL}` compared case-insensitively (and
nothing else filtered: its compiled filter accepts a message exactly when
the level matches one of the four), `stack_trace_mode = "summary"`, no
host/logger/message patterns, no rate limiter, batching off. -/
theorem c10_new_client_default_subscription
    (compileGlob compileRegex : Str → Option (Str → Bool)) (msg : RawLogEntry) :
    (NewClient compileGlob compileRegex).subscription = GetDefaultSubscription ∧
    GetDefaultSubscription.Levels
      = [("INFO").data, ("WARN").data, ("ERROR").data, ("FATAL").data] ∧
    GetDefaultSubscription.StackTraceMode = ("summary").data ∧
    GetDefaultSubscription.HostPatterns = [] ∧
    GetDefaultSubscription.LoggerPatterns = [] ∧
    GetDefaultSubscription.MessageContains = [] ∧
    GetDefaultSubscription.MessageExcludes = [] ∧
    GetDefaultSubscription.MessageRegex = [] ∧
    GetDefaultSubscription.MaxMessagesPerSecond = 0 ∧
    GetDefaultSubscription.BatchTimeoutMs = 0 ∧
    (NewClient compileGlob compileRegex).rateLimiter = none ∧
    (NewClient compileGlob compileRegex).batchTimerOn = false ∧
    ∃ fil, (NewClient compileGlob compileRegex).filter = some fil ∧
      Matches fil msg
        = ([("INFO").data, ("WARN").data, ("ERROR").data, ("FATAL").data].any
            (fun level => eqFold level msg.Level)) := by
  refine ⟨rfl, rfl, rfl, rfl, rfl, rfl, rfl, rfl, rfl, rfl, rfl, rfl, ?_⟩
  refine ⟨_, rfl, ?_⟩
  cases hA : ([("INFO").data, ("WARN").data, ("ERROR").data, ("FATAL").data].any
      (fun level => eqFold level msg.Level)) <;>
    simp [Matches, NewMessageFilter, GetDefaultSubscription, hA]

/-! ## Stack-trace reduction (`websocket_filter.go`, model helpers) -/

/-- ASCII whitespace recognised by `strings.TrimSpace` /
`unicode.IsSpace`. -/
def isWhite (c : Char) : Bool :=
  c = ' ' || c = '\t' || c = '\n' || c = '\x0b' || c = '\x0c' || c = '\r'

/-- `strings.TrimSpace`. -/
def trim (s : Str) : Str :=
  ((s.dropWhile isWhite).reverse.dropWhile isWhite).reverse

/-- `strings.Split(stackTrace, "\n")`. -/
def splitLines : Str → List Str
  | [] => [[]]
  | c :: t =>
    if c = '\n' then [] :: splitLines t
    else
      match splitLines t with
      | [] => [[c]]
      | l :: ls => (c :: l) :: ls

/-- An exception-header line (dropped by the frame scanners). -/
def isHeaderLine (t : Str) : Bool :=
  containsSub t (("Exception:").data) || containsSub t (("Error:").data)

/-- A frame-shaped line: contains `.java:` or `.kt:` or a `(…)` call-site
shape. -/
def isFrameLine (t : Str) : Bool :=
  containsSub t ((".java:").data) || containsSub t ((".kt:").data) ||
  (containsSub t (("(").data) && containsSub t ((")").data))

/-- A trimmed line that `filterStackTraceFrames` treats as a frame:
non-empty, not an exception header, frame-shaped. -/
def frameShaped (t : Str) : Bool :=
  !t.isEmpty && !isHeaderLine t && isFrameLine t

/-- First index of a character (Go `strings.Index` for one-char needles). -/
def idxOfChar : Str → Char → Option Nat
  | [], _ => none
  | c :: t, d => if c = d then some 0 else (idxOfChar t d).map (· + 1)

/-- Last index of a character (Go `strings.LastIndex`). -/
def lastIdxOfChar (s : Str) (d : Char) : Option Nat :=
  match idxOfChar s.reverse d with
  | none => none
  | some i => some (s.length - 1 - i)

/-- `extractClassName` from `websocket_filter.go`: strip a leading `at `,
trim, cut at the first `(` (only when not at position 0), then cut at the
last `.` (only when not at position 0). -/
def extractClassName (stackLine : Str) : Str :=
  let line := if leadsWith stackLine (("at ").data) then stackLine.drop 3 else stackLine
  let line := trim line
  let line :=
    match idxOfChar line '(' with
    | some i => if 0 < i then line.take i else line
    | none => line
  match lastIdxOfChar line '.' with
  | some i => if 0 < i then line.take i else line
  | none => line

/-- The scanning loop of `filterStackTraceFrames`: walks the lines carrying
the `firstFrame` seen so far, returning the kept frames and the final
`firstFrame`.  A frame is skipped by the include patterns only if none
matches and it is not the first frame, and by the exclude patterns only if
one matches and it is not the first frame. -/
def frameLoop (inc exc : List (Str → Bool)) : List Str → Str → List Str × Str
  | [], firstFrame => ([], firstFrame)
  | line :: rest, firstFrame =>
    let t := trim line
    if t.isEmpty then frameLoop inc exc rest firstFrame
    else if isHeaderLine t then frameLoop inc exc rest firstFrame
    else if !isFrameLine t then frameLoop inc exc rest firstFrame
    else
      let ff := if firstFrame.isEmpty then t else firstFrame
      let cn := extractClassName t
      if !inc.isEmpty && !(inc.any (fun g => g t || g cn)) && !(t == ff) then
        frameLoop inc exc rest ff
      else if !exc.isEmpty && (exc.any (fun g => g t || g cn)) && !(t == ff) then
        frameLoop inc exc rest ff
      else
        let r := frameLoop inc exc rest ff
        (t :: r.1, r.2)

/-- `filterStackTraceFrames` from `websocket_filter.go`: run the scanning
loop, then re-insert the first frame if everything was filtered out. -/
def filterStackTraceFrames (f : MessageFilter) (stackTrace : Str) : List Str :=
  let r := frameLoop f.stackInclude f.stackExclude (splitLines stackTrace) []
  if !r.2.isEmpty && r.1.isEmpty then [r.2] else r.1

/-- `countStackFrames`: the number of frame-shaped lines (exception headers
are **not** excluded here, faithfully to the Go code). -/
def countStackFrames (stackTrace : Str) : Nat :=
  ((splitLines stackTrace).filter
    (fun line => !(trim line).isEmpty && isFrameLine (trim line))).length

/-- `extractFirstRelevantFrame`: first frame-shaped non-header line, else
first non-empty line, else `"Unknown"`. -/
def extractFirstRelevantFrame (stackTrace : Str) : Str :=
  let lines := splitLines stackTrace
  match lines.find? (fun line => frameShaped (trim line)) with
  | some line => trim line
  | none =>
    match lines.find? (fun line => !(trim line).isEmpty) with
    | some line => trim line
    | none => ("Unknown").data

/-- The two reduced stack-trace shapes sent to subscribers. -/
inductive StackTraceOut where
  | summary (hash : Str) (firstLine : Str) (frameCount : Nat)
  | filtered (hash : Str) (relevantFrames : List Str) (omittedCount : Nat)
deriving DecidableEq

/-- `ProcessStackTrace` from `websocket_filter.go`; `hash` models the
SHA-256 content hash (external crypto library).  The Go negative-`omitted`
clamp is the `Nat` truncated subtraction. -/
def ProcessStackTrace (hash : Str → Str) (f : MessageFilter) (stackTrace : Str) :
    Option StackTraceOut :=
  if stackTrace.isEmpty then none
  else
    let mode := if f.subscription.StackTraceMode.isEmpty then ("summary").data
                else f.subscription.StackTraceMode
    if mode = ("summary").data then
      some (.summary (hash stackTrace) (extractFirstRelevantFrame stackTrace)
        (countStackFrames stackTrace))
    else if mode = ("filtered").data then
      let frames := filterStackTraceFrames f stackTrace
      some (.filtered (hash stackTrace) frames
        (countStackFrames stackTrace - frames.length))
    else
      some (.summary (hash stackTrace) (extractFirstRelevantFrame stackTrace)
        (countStackFrames stackTrace))

lemma frameLoop_skip (inc exc : List (Str → Bool)) (l : Str) (rest : List Str)
    (ff : Str) (h : frameShaped (trim l) = false) :
    frameLoop inc exc (l :: rest) ff = frameLoop inc exc rest ff := by
  unfold frameShaped at h
  simp only [frameLoop]
  by_cases hE : (trim l).isEmpty = true
  · simp [hE]
  · have hE' : (trim l).isEmpty = false := by
      cases hx : (trim l).isEmpty
      · rfl
      · exact absurd hx hE
    by_cases hH : isHeaderLine (trim l) = true
    · simp [hE', hH]
    · have hH' : isHeaderLine (trim l) = false := by
        cases hx : isHeaderLine (trim l)
        · rfl
        · exact absurd hx hH
      have hF : isFrameLine (trim l) = false := by
        simpa [hE', hH'] using h
      simp [hE', hH', hF]

lemma frameLoop_append_skip (inc exc : List (Str → Bool)) (pre rest : List Str)
    (ff : Str) (hpre : ∀ l ∈ pre, frameShaped (trim l) = false) :
    frameLoop inc exc (pre ++ rest) ff = frameLoop inc exc rest ff := by
  induction pre with
  | nil => rfl
  | cons p t ih =>
    rw [List.cons_append,
        frameLoop_skip inc exc p _ ff (hpre p (List.mem_cons_self _ _))]
    exact ih (fun l hl => hpre l (List.mem_cons_of_mem _ hl))

lemma frameLoop_head_frame (inc exc : List (Str → Bool)) (l0 : Str)
    (post : List Str) (hl0 : frameShaped (trim l0) = true) :
    frameLoop inc exc (l0 :: post) []
      = (trim l0 :: (frameLoop inc exc post (trim l0)).1,
         (frameLoop inc exc post (trim l0)).2) := by
  unfold frameShaped at hl0
  have hE : (trim l0).isEmpty = false := by
    cases hx : (trim l0).isEmpty
    · rfl
    · rw [hx] at hl0; simp at hl0
  have hH : isHeaderLine (trim l0) = false := by
    cases hx : isHeaderLine (trim l0)
    · rfl
    · rw [hx] at hl0; simp [hE] at hl0
  have hF : isFrameLine (trim l0) = true := by
    simpa [hE, hH] using hl0
  simp [frameLoop, hE, hH, hF]

/-- A subscription compiled with stack-trace mode `filtered` and no
patterns at all, used by the C6 counterexample and witness. -/
def c6filter : MessageFilter :=
  { subscription :=
      { HostPatterns := [], LoggerPatterns := [], Levels := [],
        MessageContains := [], MessageExcludes := [], MessageRegex := [],
        StackTraceMode := ("filtered").data,
        StackTraceInclude := [], StackTraceExclude := [],
        MaxMessagesPerSecond := 0, BatchTimeoutMs := 0 },
    hostGlobs := [], loggerGlobs := [], messageRegex := none,
    stackInclude := [], stackExclude := [] }

/-- **C6 counterexample.** The non-empty stack trace `"hello"` has no
frame-shaped line, so `filtered` mode emits an **empty** `frames` list:
the claim's "non-empty for every non-empty stack trace" fails. -/
theorem c6_counterexample :
    (("hello").data ≠ []) ∧
    ProcessStackTrace (fun _ => []) c6filter (("hello").data)
      = some (.filtered [] [] 0) ∧
    filterStackTraceFrames c6filter (("hello").data) = [] := by
  refine ⟨by decide, by decide, by decide⟩

/-- **C6 (amended).** For every stack trace containing at least one
frame-shaped non-header line, the `filtered` mode output has a non-empty
`frames` list, and the first frame-shaped line is always kept regardless of
the include and exclude patterns. -/
theorem c6_first_frame_always_kept (f : MessageFilter) (st : Str)
    (pre post : List Str) (l0 : Str)
    (hsplit : splitLines st = pre ++ l0 :: post)
    (hpre : ∀ l ∈ pre, frameShaped (trim l) = false)
    (hl0 : frameShaped (trim l0) = true) :
    trim l0 ∈ filterStackTraceFrames f st ∧
    filterStackTraceFrames f st ≠ [] ∧
    ∀ hash, f.subscription.StackTraceMode = ("filtered").data →
      ProcessStackTrace hash f st
        = some (.filtered (hash st) (filterStackTraceFrames f st)
            (countStackFrames st - (filterStackTraceFrames f st).length)) := by
  have hmain : trim l0 ∈ filterStackTraceFrames f st ∧
      filterStackTraceFrames f st ≠ [] := by
    unfold filterStackTraceFrames
    rw [hsplit, frameLoop_append_skip _ _ _ _ _ hpre,
        frameLoop_head_frame _ _ _ _ hl0]
    constructor
    · simp
    · simp
  have hst : st.isEmpty = false := by
    cases st with
    | nil =>
      simp only [splitLines] at hsplit
      have hlen := congrArg List.length hsplit
      simp only [List.length_cons, List.length_nil, List.length_append] at hlen
      have hpre0 : pre = [] := List.eq_nil_of_length_eq_zero (by omega)
      subst hpre0
      simp only [List.nil_append, List.cons.injEq] at hsplit
      rw [← hsplit.1] at hl0
      simp [frameShaped, trim, List.dropWhile] at hl0
    | cons c t => rfl
  refine ⟨hmain.1, hmain.2, ?_⟩
  intro hash hmode
  unfold ProcessStackTrace
  rw [hst, hmode]
  simp

/-- Witness for `c6_first_frame_always_kept` on spec scenario S6's first
frame. -/
theorem c6_first_frame_always_kept_witness :
    trim (("at a.b.C.m(C.java:1)").data)
      ∈ filterStackTraceFrames c6filter (("at a.b.C.m(C.java:1)").data) ∧
    filterStackTraceFrames c6filter (("at a.b.C.m(C.java:1)").data) ≠ [] := by
  have h := c6_first_frame_always_kept c6filter (("at a.b.C.m(C.java:1)").data) [] []
    (("at a.b.C.m(C.java:1)").data) (by decide) (by simp) (by decide)
  exact ⟨h.1, h.2.1⟩

/-! ## Timer-logger rewriting (`handleJsonLogEntry` in `log_stat_store.go`) -/

/-- The literal part of the Go regex `timedObjectId=([^\s\)]+)`. -/
def timedObjectIdPat : Str := ("timedObjectId=").data

/-- A character the capture group `[^\s\)]+` accepts: not Go-regex
whitespace (`\s = [\t\n\f\r ]`) and not `)`. -/
def validTimerChar (c : Char) : Bool :=
  !(c = ' ' || c = '\t' || c = '\n' || c = '\x0c' || c = '\r') && !(c = ')')

/-- The JSON `message` field as `handleJsonLogEntry` sees it: absent,
present but not a string, or a string. -/
inductive JsonField where
  | missing
  | nonString
  | str (s : Str)

/-- `regexp.FindStringSubmatch` for `timedObjectId=([^\s\)]+)`: the capture
of the leftmost match — scan left to right; at the first position where the
literal occurs followed by a non-empty run of valid characters, return the
maximal such run. -/
def findTimerCapture : Str → Option Str
  | [] => none
  | c :: rest =>
    if leadsWith (c :: rest) timedObjectIdPat then
      let run := ((c :: rest).drop timedObjectIdPat.length).takeWhile validTimerChar
      if run.isEmpty then findTimerCapture rest else some run
    else findTimerCapture rest

/-- The timer-logger special case of `handleJsonLogEntry`: when the logger
name contains `timer` but not `peter` (case-insensitively), the logger used
for aggregation gets `":" + timerID` appended, where `timerID` is the regex
capture or `"Unknown"`. -/
def rewriteTimerLogger (loggerName : Str) (message : JsonField) : Str :=
  if !containsCI loggerName (("peter").data)
      && containsCI loggerName (("timer").data) then
    let timerID :=
      match message with
      | .str msg =>
        match findTimerCapture msg with
        | some v => v
        | none => ("Unknown").data
      | _ => ("Unknown").data
    loggerName ++ [':'] ++ timerID
  else loggerName

/-- The regex matches at offset `i`: the literal occurs there and at least
one valid capture character follows. -/
def timerMatchAt (s : Str) (i : Nat) : Prop :=
  leadsWith (s.drop i) timedObjectIdPat = true ∧
  ((s.drop (i + timedObjectIdPat.length)).takeWhile validTimerChar) ≠ []

instance (s : Str) (i : Nat) : Decidable (timerMatchAt s i) := by
  unfold timerMatchAt
  exact inferInstance

lemma timerMatchAt_succ_cons (c : Char) (rest : Str) (j : Nat) :
    timerMatchAt (c :: rest) (j + 1) ↔ timerMatchAt rest j := by
  unfold timerMatchAt
  have h2 : (c :: rest).drop (j + 1 + timedObjectIdPat.length)
      = rest.drop (j + timedObjectIdPat.length) := by
    have he : j + 1 + timedObjectIdPat.length = (j + timedObjectIdPat.length) + 1 := by
      omega
    rw [he, List.drop_succ_cons]
  rw [List.drop_succ_cons, h2]

lemma findTimerCapture_some_of_leftmost (s : Str) (i : Nat)
    (h1 : timerMatchAt s i) (h2 : ∀ j, j < i → ¬ timerMatchAt s j) :
    findTimerCapture s
      = some ((s.drop (i + timedObjectIdPat.length)).takeWhile validTimerChar) := by
  induction s generalizing i with
  | nil =>
    exfalso
    obtain ⟨hl, _⟩ := h1
    simp [timedObjectIdPat, leadsWith] at hl
  | cons c rest ih =>
    cases i with
    | zero =>
      obtain ⟨hl, hrun⟩ := h1
      rw [List.drop_zero] at hl
      unfold findTimerCapture
      rw [if_pos hl]
      have hne : ¬ (((c :: rest).drop timedObjectIdPat.length).takeWhile
          validTimerChar).isEmpty = true := by
        intro hx
        apply hrun
        have := List.isEmpty_iff.mp hx
        simpa using this
      rw [if_neg hne]
      simp
    | succ i' =>
      have h0 : ¬ timerMatchAt (c :: rest) 0 := h2 0 (Nat.succ_pos _)
      have h1' : timerMatchAt rest i' := (timerMatchAt_succ_cons c rest i').mp h1
      have hstep : ∀ j, j < i' → ¬ timerMatchAt rest j := by
        intro j hj hmj
        exact h2 (j + 1) (Nat.succ_lt_succ hj)
          ((timerMatchAt_succ_cons c rest j).mpr hmj)
      have hdrop : (c :: rest).drop (i' + 1 + timedObjectIdPat.length)
          = rest.drop (i' + timedObjectIdPat.length) := by
        have he : i' + 1 + timedObjectIdPat.length
            = (i' + timedObjectIdPat.length) + 1 := by omega
        rw [he, List.drop_succ_cons]
      unfold findTimerCapture
      by_cases hl0 : leadsWith (c :: rest) timedObjectIdPat = true
      · rw [if_pos hl0]
        have hrunE : (((c :: rest).drop timedObjectIdPat.length).takeWhile
            validTimerChar).isEmpty = true := by
          by_contra hne
          apply h0
          refine ⟨by simpa using hl0, ?_⟩
          intro hEq
          apply hne
          exact List.isEmpty_iff.mpr (by simpa using hEq)
        rw [if_pos hrunE, ih i' h1' hstep, hdrop]
      · rw [if_neg hl0, ih i' h1' hstep, hdrop]

lemma findTimerCapture_none (s : Str)
    (h : ∀ j, j < s.length → ¬ timerMatchAt s j) :
    findTimerCapture s = none := by
  induction s with
  | nil => rfl
  | cons c rest ih =>
    have h0 : ¬ timerMatchAt (c :: rest) 0 := h 0 (Nat.succ_pos _)
    have hrec : findTimerCapture rest = none := by
      apply ih
      intro j hj
      intro hmj
      exact h (j + 1) (by simpa using Nat.succ_lt_succ hj)
        ((timerMatchAt_succ_cons c rest j).mpr hmj)
    unfold findTimerCapture
    by_cases hl0 : leadsWith (c :: rest) timedObjectIdPat = true
    · rw [if_pos hl0]
      have hrunE : (((c :: rest).drop timedObjectIdPat.length).takeWhile
          validTimerChar).isEmpty = true := by
        by_contra hne
        apply h0
        refine ⟨by simpa using hl0, ?_⟩
        intro hEq
        exact hne (List.isEmpty_iff.mpr (by simpa using hEq))
      rw [if_pos hrunE]
      exact hrec
    · rw [if_neg hl0]
      exact hrec

lemma mem_takeWhile_pred {α : Type} (p : α → Bool) :
    ∀ (l : List α) (a : α), a ∈ l.takeWhile p → p a = true := by
  intro l
  induction l with
  | nil => intro a h; simp [List.takeWhile] at h
  | cons c t ih =>
    intro a h
    by_cases hc : p c = true
    · rw [List.takeWhile_cons_of_pos hc] at h
      rcases List.mem_cons.mp h with h1 | h1
      · rw [h1]; exact hc
      · exact ih a h1
    · rw [List.takeWhile_cons_of_neg (by simpa using hc)] at h
      simp at h

/-- **C8.** For a log line whose logger name contains `timer` but not
`peter` (case-insensitively): if the message is a string in which
`timedObjectId=` is followed (at its leftmost such occurrence with a
non-empty capture) by a maximal non-empty run of non-space, non-`)`
characters `v`, the logger used for aggregation is `logger ++ ":" ++ v`;
when no such occurrence exists, or the message is absent or not a string,
it is `logger ++ ":Unknown"`. -/
theorem c8_timer_logger_rewrite (loggerName : Str)
    (hTimer : containsCI loggerName (("timer").data) = true)
    (hPeter : containsCI loggerName (("peter").data) = false) :
    (∀ msg i, timerMatchAt msg i → (∀ j, j < i → ¬ timerMatchAt msg j) →
      rewriteTimerLogger loggerName (.str msg)
        = loggerName ++ [':']
            ++ ((msg.drop (i + timedObjectIdPat.length)).takeWhile validTimerChar) ∧
      ((msg.drop (i + timedObjectIdPat.length)).takeWhile validTimerChar) ≠ [] ∧
      ∀ ch ∈ (msg.drop (i + timedObjectIdPat.length)).takeWhile validTimerChar,
        validTimerChar ch = true) ∧
    (∀ msg, (∀ j, j < msg.length → ¬ timerMatchAt msg j) →
      rewriteTimerLogger loggerName (.str msg)
        = loggerName ++ [':'] ++ ("Unknown").data) ∧
    rewriteTimerLogger loggerName .missing
      = loggerName ++ [':'] ++ ("Unknown").data ∧
    rewriteTimerLogger loggerName .nonString
      = loggerName ++ [':'] ++ ("Unknown").data := by
  have hcond : (!containsCI loggerName (("peter").data)
      && containsCI loggerName (("timer").data)) = true := by
    rw [hTimer, hPeter]
    rfl
  have hred : ∀ msg, rewriteTimerLogger loggerName (.str msg)
      = loggerName ++ [':']
          ++ (match findTimerCapture msg with
              | some v => v
              | none => ("Unknown").data) := by
    intro msg
    unfold rewriteTimerLogger
    rw [if_pos hcond]
  refine ⟨?_, ?_, ?_, ?_⟩
  · intro msg i h1 h2
    refine ⟨?_, h1.2, fun ch hch => mem_takeWhile_pred validTimerChar _ ch hch⟩
    rw [hred, findTimerCapture_some_of_leftmost msg i h1 h2]
  · intro msg hnone
    rw [hred, findTimerCapture_none msg hnone]
  · unfold rewriteTimerLogger
    rw [if_pos hcond]
  · unfold rewriteTimerLogger
    rw [if_pos hcond]

/-- Witness for `c8_timer_logger_rewrite`: a timer logger with a
`timedObjectId=x7` capture terminated by `)`. -/
theorem c8_timer_logger_rewrite_witness :
    rewriteTimerLogger (("MyTimer").data)
        (.str (("ab timedObjectId=x7) z").data))
      = ("MyTimer:x7").data := by
  have h := ((c8_timer_logger_rewrite (("MyTimer").data) (by decide) (by decide)).1
    (("ab timedObjectId=x7) z").data) 3 (by decide) (by decide)).1
  rw [h]
  decide

/-! ## Query layer (`log_writer.go`) -/

/-- The three events the hub's `Run` loop selects over. -/
inductive HubEvent where
  | register (c : Nat)
  | unregister (c : Nat)
  | broadcast
deriving DecidableEq

/-- `Hub` from `websocket_hub.go`: the session set (clients identified by
number) and the hard cap. -/
structure Hub where
  clients : Finset Nat
  maxClients : Nat

/-- `NewHub`. -/
def NewHub (maxClients : Nat) : Hub := { clients := ∅, maxClients := maxClients }

/-- `registerClient`: at or above the cap the client is refused — its send
channel and socket are closed (the returned `true` flag) — and the set is
unchanged; otherwise it joins the set. -/
def registerClient (h : Hub) (c : Nat) : Hub × Bool :=
  if h.maxClients ≤ h.clients.card then (h, true)
  else ({ h with clients := insert c h.clients }, false)

/-- `unregisterClient`: remove the client if present. -/
def unregisterClient (h : Hub) (c : Nat) : Hub :=
  if c ∈ h.clients then { h with clients := h.clients.erase c } else h

/-- One iteration of the hub's `Run` event loop (a broadcast dispatches to
sessions but never mutates the set). -/
def hubStep (h : Hub) : HubEvent → Hub
  | .register c => (registerClient h c).1
  | .unregister c => unregisterClient h c
  | .broadcast => h

/-- The hub state after processing an event sequence from startup. -/
def runHub (maxClients : Nat) (evs : List HubEvent) : Hub :=
  evs.foldl hubStep (NewHub maxClients)

lemma hubStep_bound (st : Hub) (e : HubEvent) (h0 : st.clients.card ≤ st.maxClients) :
    (hubStep st e).clients.card ≤ (hubStep st e).maxClients ∧
    (hubStep st e).maxClients = st.maxClients := by
  cases e with
  | register c =>
    simp only [hubStep, registerClient]
    by_cases hc : st.maxClients ≤ st.clients.card
    · rw [if_pos hc]
      exact ⟨h0, rfl⟩
    · rw [if_neg hc]
      constructor
      · show (insert c st.clients).card ≤ st.maxClients
        have hins := Finset.card_insert_le c st.clients
        omega
      · rfl
  | unregister c =>
    simp only [hubStep, unregisterClient]
    by_cases hc : c ∈ st.clients
    · rw [if_pos hc]
      constructor
      · show (st.clients.erase c).card ≤ st.maxClients
        have hers := Finset.card_erase_le (s := st.clients) (a := c)
        omega
      · rfl
    · rw [if_neg hc]
      exact ⟨h0, rfl⟩
  | broadcast => exact ⟨h0, rfl⟩

lemma runHub_fold_bound (l : List HubEvent) (st : Hub)
    (h0 : st.clients.card ≤ st.maxClients) :
    (l.foldl hubStep st).clients.card ≤ (l.foldl hubStep st).maxClients ∧
    (l.foldl hubStep st).maxClients = st.maxClients := by
  induction l generalizing st with
  | nil => exact ⟨h0, rfl⟩
  | cons e t ih =>
    rw [List.foldl_cons]
    have hstep := hubStep_bound st e h0
    have := ih (hubStep st e) hstep.1
    exact ⟨this.1, this.2.trans hstep.2⟩

/-- **C9.** In every state reachable from startup the session set holds at
most `max_clients` sessions, and a register event arriving at the cap is
refused (send channel and socket closed) with the set unchanged. -/
theorem c9_hub_never_exceeds_cap (maxClients : Nat) (evs : List HubEvent)
    (h : Hub) (c : Nat) :
    (runHub maxClients evs).clients.card ≤ maxClients ∧
    (h.maxClients ≤ h.clients.card → registerClient h c = (h, true)) := by
  constructor
  · have h0 : (NewHub maxClients).clients.card ≤ (NewHub maxClients).maxClients := by
      simp [NewHub]
    have hb := runHub_fold_bound evs (NewHub maxClients) h0
    unfold runHub
    have hmax : (evs.foldl hubStep (NewHub maxClients)).maxClients = maxClients := hb.2
    exact le_of_le_of_eq hb.1 hmax
  · intro hcap
    unfold registerClient
    rw [if_pos hcap]

/-- Witness for `c9_hub_never_exceeds_cap`: a cap of 2, three register
events, and a full hub refusing a third client. -/
theorem c9_hub_never_exceeds_cap_witness :
    (runHub 2 [.register 1, .register 2, .register 3]).clients.card ≤ 2 ∧
    registerClient ⟨{1, 2}, 2⟩ 3 = (⟨{1, 2}, 2⟩, true) := by
  have h := c9_hub_never_exceeds_cap 2 [.register 1, .register 2, .register 3]
    ⟨{1, 2}, 2⟩ 3
  exact ⟨h.1, h.2 (by decide)⟩
